import Mathlib

/-!
Shallow embedding of the LEXIS frontend (a Next.js legal-case dashboard) in
Lean 4, together with theorems settling the specification claims about it.

Embedded components and their sources:
* JS string primitives used by the code (`includes`, `split`, `slice`,
  `trim`, `toLowerCase`, truthiness of `||`) — modelled over Lean `String`
  and `List Char`; JS numbers are modelled as `Nat`/`Rat` where the code
  only ever holds integral or exact values.
* the Zustand application store and its actions (`src/store/useAppStore.ts`);
* the auth HTTP wrapper `apiRequest` and `login` (`src/components/AuthProvider.tsx`);
* the SSE streaming chat consumer `streamChatWithDocuments` and the
  citation mapping of `chatWithCase` (the api-service module), with a
  from-scratch JSON parser standing for `JSON.parse`;
* the upload `validateFile` check and `formatBytes`/`config`
  (the FileUpload component and config module).
-/

namespace Lexis

/-! ### JS string primitives -/

/-- `listStartsWith s p` is true when `p` is an initial segment of `s`
(char-list version of JS `String.prototype.startsWith`). -/
def listStartsWith : List Char → List Char → Bool
  | _, [] => true
  | [], _ :: _ => false
  | c :: cs, d :: ds => c = d && listStartsWith cs ds

/-- `listContainsSub s sub` is true when `sub` occurs contiguously inside `s`
(char-list version of JS `String.prototype.includes`). -/
def listContainsSub : List Char → List Char → Bool
  | [], sub => sub.isEmpty
  | c :: cs, sub => listStartsWith (c :: cs) sub || listContainsSub cs sub

/-- JS `s.includes(sub)`. -/
def jsIncludes (s sub : String) : Bool :=
  listContainsSub s.toList sub.toList

/-- JS `s.startsWith(p)`. -/
def jsStartsWith (s p : String) : Bool :=
  listStartsWith s.toList p.toList

/-- JS `s.slice(n)` for a non-negative `n`. -/
def jsSlice (s : String) (n : Nat) : String :=
  ⟨s.toList.drop n⟩

/-- Split a char list at every occurrence of `sep`, keeping empty parts:
`"a\nb\n".split("\n") = ["a","b",""]`. -/
def splitOnChar (sep : Char) : List Char → List (List Char)
  | [] => [[]]
  | c :: rest =>
    if c = sep then [] :: splitOnChar sep rest
    else
      match splitOnChar sep rest with
      | r :: rs => (c :: r) :: rs
      | [] => [[c]]

/-- JS `s.split('\n')`. -/
def jsSplitNl (s : String) : List String :=
  (splitOnChar '\n' s.toList).map (fun cs => ⟨cs⟩)

/-- JS `s.trim()`: strip leading and trailing whitespace. -/
def jsTrim (s : String) : String :=
  ⟨(s.toList.dropWhile Char.isWhitespace).reverse.dropWhile Char.isWhitespace |>.reverse⟩

/-- JS `s.toLowerCase()` (ASCII-adequate model). -/
def jsToLower (s : String) : String :=
  ⟨s.toList.map Char.toLower⟩

/-- Truthiness-aware JS `x || d` for an optional string field: `undefined`
and the empty string are falsy. -/
def jsOrStr (x : Option String) (d : String) : String :=
  match x with
  | some s => if s = "" then d else s
  | none => d

/-- Truthiness-aware JS `x || d` for an optional numeric field: `undefined`
and `0` are falsy. -/
def jsOrNat (x : Option Nat) (d : Nat) : Nat :=
  match x with
  | some n => if n = 0 then d else n
  | none => d

/-- Truthiness-aware JS `x || d` for an optional rational field. -/
def jsOrRat (x : Option ℚ) (d : ℚ) : ℚ :=
  match x with
  | some q => if q = 0 then d else q
  | none => d

/-! ### Data model (`src/types`, re-exported from the components module) -/

/-- `Case.status ∈ {active, archived, completed}`. -/
inductive CaseStatus
  | active
  | archived
  | completed
deriving DecidableEq, Repr

/-- The `Case` interface. -/
structure Case where
  id : String
  user_id : String
  title : String
  description : Option String := none
  status : CaseStatus := .active
  qdrant_collection_name : Option String := none
  created_at : String := ""
  updated_at : String := ""
deriving DecidableEq, Repr

/-- The `ChatThread` interface. -/
structure ChatThread where
  id : String
  case_id : String
  user_id : String
  title : String
  created_at : String := ""
  updated_at : String := ""
deriving DecidableEq, Repr

/-- The `Citation` interface: the backend naming convention
(`chunk_id`, `document_id`, …) plus the expanded-view aliases
(`id`, `documentId`, …). -/
structure Citation where
  chunk_id : String
  content : String
  full_content : String
  page_number : Nat
  chunk_number : Nat
  document_id : String
  document_name : String
  case_id : String
  score : ℚ
  id : String
  documentId : String
  documentTitle : String
  relevantSourceText : String
  page : Nat
deriving DecidableEq, Repr

/-- `ChatMessage.role`. -/
inductive ChatRole
  | user
  | assistant
deriving DecidableEq, Repr

/-- The `ChatMessage` interface. -/
structure ChatMessage where
  id : String
  thread_id : String
  role : ChatRole
  content : String
  citations : Option (List Citation) := none
  created_at : String := ""
deriving DecidableEq, Repr

/-! ### Application state store (`src/store/useAppStore.ts`)

Zustand `set` with an object literal merges the named fields into the
state and leaves every other field unchanged; each action below is the
corresponding pure state transformer. -/

/-- Theme setting of the store. -/
inductive Theme
  | light
  | dark
  | system
deriving DecidableEq, Repr

/-- The full state held by `useAppStore` (callable actions excluded). -/
structure AppState where
  sidebarOpen : Bool := true
  currentCase : Option Case := none
  currentThread : Option ChatThread := none
  isLoading : Bool := false
  error : Option String := none
  cases : List Case := []
  chatMessages : List ChatMessage := []
  selectedCitation : Option Citation := none
  isTyping : Bool := false
  streamingContent : String := ""
  createCaseModalOpen : Bool := false
  citationModalOpen : Bool := false
  theme : Theme := .system
deriving Repr

/-- Store action `setCurrentCase`. -/
def setCurrentCase (st : AppState) (caseItem : Option Case) : AppState :=
  { st with
    currentCase := caseItem
    currentThread := none
    chatMessages := []
    streamingContent := ""
    selectedCitation := none }

/-- Store action `setCurrentThread`. -/
def setCurrentThread (st : AppState) (thread : Option ChatThread) : AppState :=
  { st with
    currentThread := thread
    chatMessages := []
    streamingContent := ""
    selectedCitation := none }

/-- `state.currentCase?.id === caseId`: with no current case the optional
chain yields `undefined`, which is not `===` to any string. -/
def currentCaseIs (st : AppState) (caseId : String) : Bool :=
  match st.currentCase with
  | some c => c.id = caseId
  | none => false

/-- Store action `removeCase`. -/
def removeCase (st : AppState) (caseId : String) : AppState :=
  { st with
    cases := st.cases.filter (fun c => !(c.id = caseId))
    currentCase := if currentCaseIs st caseId then none else st.currentCase
    currentThread := if currentCaseIs st caseId then none else st.currentThread
    chatMessages := if currentCaseIs st caseId then [] else st.chatMessages }

/-- Store action `addCase` (prepends). -/
def addCase (st : AppState) (caseItem : Case) : AppState :=
  { st with cases := caseItem :: st.cases }

/-! ### JSON values and `JSON.parse`

The streaming consumer and `chatWithCase` call `JSON.parse`; the parser
below implements the JSON grammar (rfc8259) over `List Char` with a fuel
argument for termination.  Number tokens are kept as their lexemes: no
claim inspects a numeric value, only parse success/failure and the shape
of objects. -/

/-- A parsed JSON value. -/
inductive Json
  | null
  | bool (b : Bool)
  | num (lexeme : String)
  | str (s : String)
  | arr (elems : List Json)
  | obj (fields : List (String × Json))

/-- JSON insignificant whitespace. -/
def jsonWs (c : Char) : Bool :=
  c = ' ' || c = '\t' || c = '\n' || c = '\r'

/-- Skip insignificant whitespace. -/
def skipWs (cs : List Char) : List Char :=
  cs.dropWhile jsonWs

/-- Hex digit value. -/
def hexVal (c : Char) : Option Nat :=
  if '0' ≤ c ∧ c ≤ '9' then some (c.toNat - '0'.toNat)
  else if 'a' ≤ c ∧ c ≤ 'f' then some (c.toNat - 'a'.toNat + 10)
  else if 'A' ≤ c ∧ c ≤ 'F' then some (c.toNat - 'A'.toNat + 10)
  else none

/-- Parse the body of a JSON string after the opening quote, returning the
decoded string and the remaining input after the closing quote. -/
def parseStringBody : Nat → List Char → Option (String × List Char)
  | 0, _ => none
  | _, [] => none
  | fuel + 1, c :: rest =>
    if c = '"' then some ("", rest)
    else if c = '\\' then
      match rest with
      | [] => none
      | e :: rest2 =>
        let decoded : Option (Char × List Char) :=
          if e = '"' then some ('"', rest2)
          else if e = '\\' then some ('\\', rest2)
          else if e = '/' then some ('/', rest2)
          else if e = 'b' then some ('\x08', rest2)
          else if e = 'f' then some ('\x0c', rest2)
          else if e = 'n' then some ('\n', rest2)
          else if e = 'r' then some ('\r', rest2)
          else if e = 't' then some ('\t', rest2)
          else if e = 'u' then
            match rest2 with
            | h1 :: h2 :: h3 :: h4 :: rest3 =>
              match hexVal h1, hexVal h2, hexVal h3, hexVal h4 with
              | some a, some b, some c, some d =>
                some (Char.ofNat (((a * 16 + b) * 16 + c) * 16 + d), rest3)
              | _, _, _, _ => none
            | _ => none
          else none
        match decoded with
        | some (ch, rest3) =>
          match parseStringBody fuel rest3 with
          | some (s, rest4) => some (⟨ch :: s.toList⟩, rest4)
          | none => none
        | none => none
    else if c.toNat < 0x20 then none
    else
      match parseStringBody fuel rest with
      | some (s, rest2) => some (⟨c :: s.toList⟩, rest2)
      | none => none

/-- Take the longest run of decimal digits. -/
def takeDigits (cs : List Char) : List Char × List Char :=
  (cs.takeWhile Char.isDigit, cs.dropWhile Char.isDigit)

/-- Parse a JSON number token, returning its lexeme. -/
def parseNumber (cs : List Char) : Option (String × List Char) :=
  let (neg, cs1) :=
    match cs with
    | '-' :: rest => (['-'], rest)
    | _ => (([] : List Char), cs)
  match cs1 with
  | [] => none
  | c :: _ =>
    if ¬ c.isDigit then none
    else
      let (intPart, cs2) :=
        match cs1 with
        | '0' :: rest => (['0'], rest)
        | _ => takeDigits cs1
      let (fracPart, cs3) :=
        match cs2 with
        | '.' :: rest =>
          let (ds, rest2) := takeDigits rest
          if ds = [] then ([], '.' :: rest) else ('.' :: ds, rest2)
        | _ => ([], cs2)
      let fracOk : Bool := match cs2 with
        | '.' :: rest => !(takeDigits rest).1.isEmpty
        | _ => true
      let (expPart, cs4) :=
        match cs3 with
        | e :: rest =>
          if e = 'e' ∨ e = 'E' then
            let (sign, rest2) :=
              match rest with
              | s :: r2 => if s = '+' ∨ s = '-' then ([s], r2) else ([], rest)
              | [] => ([], rest)
            let (ds, rest3) := takeDigits rest2
            if ds = [] then ([], cs3) else (e :: (sign ++ ds), rest3)
          else ([], cs3)
        | [] => ([], cs3)
      let expOk : Bool := match cs3 with
        | e :: rest =>
          if e = 'e' ∨ e = 'E' then
            !(takeDigits (match rest with
              | s :: r2 => if s = '+' ∨ s = '-' then r2 else rest
              | [] => rest)).1.isEmpty
          else true
        | [] => true
      if fracOk && expOk then
        some (⟨neg ++ intPart ++ fracPart ++ expPart⟩, cs4)
      else none

mutual

/-- Parse one JSON value (leading whitespace allowed). -/
def parseValue : Nat → List Char → Option (Json × List Char)
  | 0, _ => none
  | fuel + 1, cs =>
    let cs := skipWs cs
    match cs with
    | [] => none
    | c :: rest =>
      if c = '"' then
        match parseStringBody (fuel + 1) rest with
        | some (s, rest2) => some (.str s, rest2)
        | none => none
      else if c = '\x7b' then
        parseObjFields fuel (skipWs rest) true
      else if c = '[' then
        parseArrElems fuel (skipWs rest) true
      else if listStartsWith cs "true".toList then some (.bool true, cs.drop 4)
      else if listStartsWith cs "false".toList then some (.bool false, cs.drop 5)
      else if listStartsWith cs "null".toList then some (.null, cs.drop 4)
      else
        match parseNumber cs with
        | some (lex, rest2) => some (.num lex, rest2)
        | none => none

/-- Parse the fields of an object after `{` (and after any comma);
`first` is true before the first field, where `}` closes an empty object. -/
def parseObjFields : Nat → List Char → Bool → Option (Json × List Char)
  | 0, _, _ => none
  | fuel + 1, cs, first =>
    match cs with
    | '\x7d' :: rest => if first then some (.obj [], rest) else none
    | '"' :: rest =>
      match parseStringBody (fuel + 1) rest with
      | some (key, rest2) =>
        match skipWs rest2 with
        | ':' :: rest3 =>
          match parseValue fuel rest3 with
          | some (v, rest4) =>
            match skipWs rest4 with
            | ',' :: rest5 =>
              match parseObjFields fuel (skipWs rest5) false with
              | some (.obj fields, rest6) => some (.obj ((key, v) :: fields), rest6)
              | _ => none
            | '\x7d' :: rest5 => some (.obj [(key, v)], rest5)
            | _ => none
          | none => none
        | _ => none
      | none => none
    | _ => none

/-- Parse the elements of an array after `[` (and after any comma);
`first` is true before the first element, where `]` closes an empty
array. -/
def parseArrElems : Nat → List Char → Bool → Option (Json × List Char)
  | 0, _, _ => none
  | fuel + 1, cs, first =>
    match cs with
    | ']' :: rest => if first then some (.arr [], rest) else none
    | _ =>
      match parseValue fuel cs with
      | some (v, rest) =>
        match skipWs rest with
        | ',' :: rest2 =>
          match parseArrElems fuel (skipWs rest2) false with
          | some (.arr elems, rest3) => some (.arr (v :: elems), rest3)
          | _ => none
        | ']' :: rest2 => some (.arr [v], rest2)
        | _ => none
      | none => none

end

/-- `JSON.parse(s)`: parse one value and require only whitespace after
it; `none` models a thrown `SyntaxError`. -/
def jsonParse (s : String) : Option Json :=
  match parseValue (s.length + 1) s.toList with
  | some (j, rest) => if skipWs rest = [] then some j else none
  | none => none

/-- JS property read `o["type"]`: only objects carry fields; with
duplicate keys `JSON.parse` keeps the last one. -/
def jsonTypeField (j : Json) : Option Json :=
  match j with
  | .obj fields => (fields.reverse.find? (fun kv => kv.1 = "type")).map Prod.snd
  | _ => none

/-- `parsedData.type === 'done' || parsedData.type === 'error'`. -/
def isTerminalEvent (j : Json) : Bool :=
  match jsonTypeField j with
  | some (.str t) => t = "done" || t = "error"
  | _ => false

/-! ### The SSE streaming chat consumer (`streamChatWithDocuments`)

The response body is modelled as the list of already-decoded text
fragments the reader yields (`decoder.decode(value)` per read); the
callback activity is reified as a trace of `StreamEvent`s in invocation
order. -/

/-- One callback invocation of the consumer. -/
inductive StreamEvent
  | chunk (data : Json)
  | error (message : String)
  | complete

/-- The inner `for (const line of lines)` loop over one fragment's lines:
returns the trace it emits and whether it hit a terminal event (the
`return` after `onComplete()`). -/
def processLines : List String → List StreamEvent × Bool
  | [] => ([], false)
  | line :: rest =>
    if jsStartsWith line "data: " then
      let data := jsSlice line 6
      if jsTrim data = "" then processLines rest
      else
        match jsonParse data with
        | some parsedData =>
          if isTerminalEvent parsedData then
            ([.chunk parsedData, .complete], true)
          else
            let (tr, term) := processLines rest
            (.chunk parsedData :: tr, term)
        | none => processLines rest
    else processLines rest

/-- The outer `while (true)` read loop: each fragment is decoded and
split on `"\n"` independently; end of stream emits `onComplete()`. -/
def streamLoop : List String → List StreamEvent
  | [] => [.complete]
  | f :: fs =>
    let (tr, term) := processLines (jsSplitNl f)
    if term then tr else tr ++ streamLoop fs

/-- The HTTP response handed to the consumer: `ok`/`status` from `fetch`,
and `body = none` when `response.body?.getReader()` yields no reader. -/
structure StreamResponse where
  ok : Bool
  status : Nat
  body : Option (List String)
deriving Repr

/-- `streamChatWithDocuments` after the POST resolved to `resp`: a non-ok
response or a missing reader throws, is caught at the top level and
reported through `onError`; otherwise the read loop runs. -/
def streamChatWithDocuments (resp : StreamResponse) : List StreamEvent :=
  if ¬ resp.ok then
    [.error ("HTTP error! status: " ++ toString resp.status)]
  else
    match resp.body with
    | none => [.error "No reader available"]
    | some frags => streamLoop frags

/-- Number of `onChunk` invocations in a trace. -/
def countChunks (tr : List StreamEvent) : Nat :=
  (tr.filter (fun e => match e with | .chunk _ => true | _ => false)).length

/-- Count of `onComplete` invocations in a trace. -/
def countComplete (tr : List StreamEvent) : Nat :=
  (tr.filter (fun e => match e with | .complete => true | _ => false)).length

/-- Count of `onError` invocations in a trace. -/
def countErrors (tr : List StreamEvent) : Nat :=
  (tr.filter (fun e => match e with | .error _ => true | _ => false)).length

/-! ### Concrete SSE inputs used by the stream claims -/

/-- The first fragment of the reference scenario:
`"data: {\"type\":\"content\",\"content\":\"hi\"}\n"`. -/
def sseContentFrag : String :=
  "data: \x7b\"type\":\"content\",\"content\":\"hi\"\x7d\n"

/-- The second fragment of the reference scenario:
`"data: {\"type\":\"done\"}\n"`. -/
def sseDoneFrag : String :=
  "data: \x7b\"type\":\"done\"\x7d\n"

/-- A fragment whose `data: ` payload is not valid JSON:
`"data: {not json}\n"`. -/
def sseMalformedFrag : String :=
  "data: \x7bnot json\x7d\n"

/-- The content-fragment line cut after `{"ty` — the first half of a
`data: ` line split across two reads. -/
def sseSplitFragA : String :=
  "data: \x7b\"ty"

/-- The remainder of the content-fragment line, starting mid-payload. -/
def sseSplitFragB : String :=
  "pe\":\"content\",\"content\":\"hi\"\x7d\n"

/-- The parsed content event `{"type":"content","content":"hi"}`. -/
def contentEvent : Json :=
  .obj [("type", .str "content"), ("content", .str "hi")]

/-- The parsed done event `{"type":"done"}`. -/
def doneEvent : Json :=
  .obj [("type", .str "done")]

/-- A single `data: ` line carrying the done event, without a newline. -/
def doneLine : String :=
  "data: \x7b\"type\":\"done\"\x7d"

/-- A single `data: ` line carrying a status event. -/
def statusLine : String :=
  "data: \x7b\"type\":\"status\"\x7d"

/-- An ok streaming response whose body yields the given fragments. -/
def respOf (frags : List String) : StreamResponse :=
  { ok := true, status := 200, body := some frags }

/-! ### Config and upload validation (config module, FileUpload component) -/

/-- `config.maxFilesPerUpload` default (`'40'`). -/
def config_maxFilesPerUpload : Nat := 40

/-- `config.maxFileSizeMB` default (`'32'`). -/
def config_maxFileSizeMB : Nat := 32

/-- The default `accept` prop of the FileUpload component. -/
def defaultAccept : String := ".pdf,.doc,.docx,.txt"

/-- A file as the validator sees it: `name` and `size` in bytes. -/
structure JsFile where
  name : String
  size : Nat
deriving DecidableEq, Repr

/-- Render a hundredths value the way `parseFloat(x.toFixed(2))` prints an
exact two-decimal quantity: trailing zeros of the fraction dropped. -/
def renderCenti (c : Nat) : String :=
  let ip := c / 100
  let fr := c % 100
  if fr = 0 then toString ip
  else if fr % 10 = 0 then toString ip ++ "." ++ toString (fr / 10)
  else toString ip ++ "." ++ (if fr < 10 then "0" else "") ++ toString fr

/-- `formatBytes`: `i = floor(log bytes / log 1024)` (exact via `Nat.log`
rather than float logs), then the value scaled into unit `i`, kept to two
decimals and trimmed.  IEEE-double rounding inside `toFixed` is
approximated by exact round-half-up on the rational value; JS
`sizes[i]` beyond `GB` is `undefined`. -/
def formatBytes (bytes : Nat) : String :=
  if bytes = 0 then "0 Bytes"
  else
    let i := Nat.log 1024 bytes
    let c := (bytes * 100 + 1024 ^ i / 2) / 1024 ^ i
    renderCenti c ++ " " ++ (["Bytes", "KB", "MB", "GB"].getD i "undefined")

/-- `'.' + file.name.split('.').pop()?.toLowerCase()`. -/
def fileExtension (name : String) : String :=
  "." ++ jsToLower (((splitOnChar '.' name.toList).map (fun cs => (⟨cs⟩ : String))).getLastD "")

/-- `accept.split(',').map(type => type.trim().toLowerCase())`. -/
def acceptedTypes (accept : String) : List String :=
  (splitOnChar ',' accept.toList).map (fun cs => jsToLower (jsTrim ⟨cs⟩))

/-- The oversize message of `validateFile`, verbatim. -/
def sizeErrorMsg (maxFileSizeMB : Nat) (name : String) : String :=
  "File \"" ++ name ++ "\" is too large. Maximum size is " ++ toString maxFileSizeMB
    ++ "MB (" ++ formatBytes (maxFileSizeMB * 1024 * 1024)
    ++ ").Its been removed from the list automatically"

/-- The unsupported-format message of `validateFile`, verbatim. -/
def formatErrorMsg (accept : String) (name : String) : String :=
  "File \"" ++ name ++ "\" has an unsupported format. Accepted formats: " ++ accept

/-- `validateFile(file)`: size is checked first against
`maxSize = config.maxFileSizeMB * 1024 * 1024` with a strict `>`, then the
extension against the accepted list; `null` (`none`) means valid.  The
check is local — no network request is involved. -/
def validateFile (maxFileSizeMB : Nat) (accept : String) (file : JsFile) : Option String :=
  let maxSize := maxFileSizeMB * 1024 * 1024
  if file.size > maxSize then
    some (sizeErrorMsg maxFileSizeMB file.name)
  else if !((acceptedTypes accept).contains (fileExtension file.name)) then
    some (formatErrorMsg accept file.name)
  else
    none

/-! ### `chatWithCase` citation mapping (api-service module) -/

/-- A citation object as the Python backend returns it: every field may be
absent.  JS falsiness of present-but-empty values is handled by
`jsOrStr`/`jsOrNat`/`jsOrRat` at use sites. -/
structure BackendCitation where
  chunk_id : Option String := none
  id : Option String := none
  content : Option String := none
  page_number : Option Nat := none
  chunk_number : Option Nat := none
  document_id : Option String := none
  document_name : Option String := none
  score : Option ℚ := none
deriving DecidableEq, Repr

/-- The per-citation mapping inside `chatWithCase`: each field is the
verbatim `||`-chain of the source. -/
def mapCitation (caseId : String) (citation : BackendCitation) : Citation :=
  { chunk_id := jsOrStr citation.chunk_id (jsOrStr citation.id "")
    content := jsOrStr citation.content ""
    full_content := jsOrStr citation.content ""
    page_number := jsOrNat citation.page_number 1
    chunk_number := jsOrNat citation.chunk_number 0
    document_id := jsOrStr citation.document_id ""
    document_name := jsOrStr citation.document_name (jsOrStr citation.document_id "Unknown Document")
    case_id := caseId
    score := jsOrRat citation.score 0
    id := jsOrStr citation.chunk_id (jsOrStr citation.id "")
    documentId := jsOrStr citation.document_id ""
    documentTitle := jsOrStr citation.document_name (jsOrStr citation.document_id "Unknown Document")
    relevantSourceText := jsOrStr citation.content ""
    page := jsOrNat citation.page_number 1 }

/-- `(result.citations || []).map(citation => ...)` — the citations list
`chatWithCase` returns. -/
def chatWithCaseCitations (caseId : String) (citations : Option (List BackendCitation)) :
    List Citation :=
  (citations.getD []).map (mapCitation caseId)

/-! ### Session/Auth state (`src/components/AuthProvider.tsx`)

The provider keeps the access token both in a React state cell (memory)
and in `sessionStorage` (per-tab). `storeToken`/`removeToken` update the
two copies together; `logout` clears all auth state and navigates to
`/login`. -/

/-- The `User` interface of the auth provider. -/
structure User where
  id : String
  email : String
  name : String
  is_active : Bool := true
  created_at : String := ""
  updated_at : String := ""
  last_login_at : Option String := none
deriving DecidableEq, Repr

/-- Auth-relevant provider state: the in-memory token, its per-tab
`sessionStorage` mirror, the user profile, the derived flag, the loading
flag, and the route the router was last pushed to. -/
structure AuthState where
  accessToken : Option String := none
  sessionToken : Option String := none
  user : Option User := none
  isAuthenticated : Bool := false
  isLoading : Bool := true
  route : Option String := none
deriving DecidableEq, Repr

/-- `storeToken`: set the memory cell and the `sessionStorage` slot. -/
def storeToken (st : AuthState) (token : String) : AuthState :=
  { st with accessToken := some token, sessionToken := some token }

/-- `removeToken`: clear the memory cell and the `sessionStorage` slot. -/
def removeToken (st : AuthState) : AuthState :=
  { st with accessToken := none, sessionToken := none }

/-- `logout()`: the best-effort backend POST does not touch client state
(any failure is swallowed); the `finally` block clears the token, user and
flag and navigates to `/login`. -/
def logout (st : AuthState) : AuthState :=
  { removeToken st with
    user := none
    isAuthenticated := false
    route := some "/login" }

/-- An HTTP response as the wrapper sees it: a status code and a body. -/
structure HttpResponse where
  status : Nat
  body : String
deriving DecidableEq, Repr

/-- `response.ok`: status in the 2xx range. -/
def HttpResponse.ok (r : HttpResponse) : Bool :=
  200 ≤ r.status && r.status ≤ 299

/-- `apiRequest(url, options)` after `fetch` has produced `backendResp`:
on a 401 whose url includes neither `/logout` nor `/login`, run `logout`
and replace the response with a synthetic 401 `{"error":"Session expired"}`;
otherwise pass the backend response through with the state untouched. -/
def apiRequest (st : AuthState) (url : String) (backendResp : HttpResponse) :
    AuthState × HttpResponse :=
  if backendResp.status = 401 && !(jsIncludes url "/logout") && !(jsIncludes url "/login") then
    (logout st, { status := 401, body := "\x7b\"error\":\"Session expired\"\x7d" })
  else
    (st, backendResp)

/-- The outcome of the `fetch` + `response.json()` pair inside `login`:
either a network/parse failure (caught by the surrounding `try`) or a
response carrying the decoded JSON fields the code reads. -/
inductive LoginOutcome
  | netError
  | response (ok : Bool) (access_token : Option String) (user : Option User)
      (error : Option String)
deriving DecidableEq, Repr

/-- What `login` returns to its caller. -/
structure LoginResult where
  success : Bool
  error : Option String := none
  user : Option User := none
deriving DecidableEq, Repr

/-- `login(email, password)` given the backend outcome: on
`response.ok && data.access_token` (truthy, i.e. a non-empty token string)
store the token, set the user and the flag, and schedule navigation to
`/`; otherwise return `{success:false, error}` leaving token/user/flag
as they were.  `isLoading` is set in the `try` and cleared in the
`finally`, so it ends `false` on every path. -/
def login (st : AuthState) (outcome : LoginOutcome) : AuthState × LoginResult :=
  match outcome with
  | .netError => ({ st with isLoading := false }, { success := false, error := some "Network error occurred" })
  | .response ok tok usr err =>
    if ok && !(jsOrStr tok "" = "") then
      ({ storeToken st (jsOrStr tok "") with
          user := usr
          isAuthenticated := true
          isLoading := false
          route := some "/" },
        { success := true, user := usr })
    else
      ({ st with isLoading := false },
        { success := false, error := some (jsOrStr err "Login failed") })

/-- A logged-in auth state used by witness instantiations. -/
def sampleAuth : AuthState :=
  { accessToken := some "tok", sessionToken := some "tok", isAuthenticated := true }

/-- A 401 backend response used by witness instantiations. -/
def sample401 : HttpResponse :=
  { status := 401, body := "orig" }

/-- A concrete case used by witness instantiations. -/
def sampleCase : Case :=
  { id := "c1", user_id := "u1", title := "Sample" }

/-- A concrete thread used by witness instantiations. -/
def sampleThread : ChatThread :=
  { id := "t1", case_id := "c1", user_id := "u1", title := "Thread" }

/-- A concrete message used by witness instantiations. -/
def sampleMessage : ChatMessage :=
  { id := "m1", thread_id := "t1", role := .user, content := "hello" }

/-- A store state whose current case has id `"c1"`. -/
def sampleStateCurrent : AppState :=
  { currentCase := some sampleCase
    currentThread := some sampleThread
    cases := [sampleCase]
    chatMessages := [sampleMessage] }

/-- A store state whose current case has id `"c1"` but which also holds a
case `"c2"`. -/
def sampleStateOther : AppState :=
  { currentCase := some sampleCase
    currentThread := some sampleThread
    cases := [sampleCase, { sampleCase with id := "c2" }]
    chatMessages := [sampleMessage] }

end Lexis

namespace Lexis

/-! ### Helper lemmas about the line loop and the read loop -/

lemma countComplete_append (a b : List StreamEvent) :
    countComplete (a ++ b) = countComplete a + countComplete b := by
  simp [countComplete, List.filter_append]

lemma processLines_cons (line : String) (rest : List String) :
    processLines (line :: rest) =
      (if jsStartsWith line "data: " then
        if jsTrim (jsSlice line 6) = "" then processLines rest
        else
          match jsonParse (jsSlice line 6) with
          | some parsedData =>
            if isTerminalEvent parsedData then ([.chunk parsedData, .complete], true)
            else
              (.chunk parsedData :: (processLines rest).1, (processLines rest).2)
          | none => processLines rest
      else processLines rest) := by
  rw [processLines]

lemma processLines_append_of_term (ls extra : List String)
    (h : (processLines ls).2 = true) :
    processLines (ls ++ extra) = processLines ls := by
  induction ls with
  | nil => simp [processLines] at h
  | cons line rest ih =>
    rw [processLines_cons] at h
    rw [List.cons_append, processLines_cons, processLines_cons]
    by_cases hs : jsStartsWith line "data: " = true
    · simp only [if_pos hs] at h ⊢
      by_cases ht : jsTrim (jsSlice line 6) = ""
      · simp only [if_pos ht] at h ⊢
        exact ih h
      · simp only [if_neg ht] at h ⊢
        rcases hj : jsonParse (jsSlice line 6) with _ | j
        · rw [hj] at h
          dsimp only at h ⊢
          exact ih h
        · rw [hj] at h
          dsimp only at h ⊢
          by_cases hterm : isTerminalEvent j = true
          · simp only [if_pos hterm]
          · simp only [if_neg hterm] at h ⊢
            rw [ih h]
    · simp only [if_neg hs] at h ⊢
      exact ih h

lemma countComplete_processLines (ls : List String) :
    countComplete (processLines ls).1 = (if (processLines ls).2 = true then 1 else 0) := by
  induction ls with
  | nil => simp [processLines, countComplete]
  | cons line rest ih =>
    rw [processLines_cons]
    by_cases hs : jsStartsWith line "data: " = true
    · simp only [if_pos hs]
      by_cases ht : jsTrim (jsSlice line 6) = ""
      · simp only [if_pos ht]; exact ih
      · simp only [if_neg ht]
        rcases hj : jsonParse (jsSlice line 6) with _ | j <;> dsimp only
        · exact ih
        · by_cases hterm : isTerminalEvent j = true
          · simp only [if_pos hterm]; simp [countComplete]
          · simp only [if_neg hterm]
            simpa [countComplete] using ih
    · simp only [if_neg hs]; exact ih

lemma processLines_term_shape (ls : List String)
    (h : (processLines ls).2 = true) :
    ∃ pre, (processLines ls).1 = pre ++ [.complete] ∧ countComplete pre = 0 := by
  induction ls with
  | nil => simp [processLines] at h
  | cons line rest ih =>
    rw [processLines_cons] at h ⊢
    by_cases hs : jsStartsWith line "data: " = true
    · simp only [if_pos hs] at h ⊢
      by_cases ht : jsTrim (jsSlice line 6) = ""
      · simp only [if_pos ht] at h ⊢; exact ih h
      · simp only [if_neg ht] at h ⊢
        rcases hj : jsonParse (jsSlice line 6) with _ | j
        · rw [hj] at h
          dsimp only at h ⊢
          exact ih h
        · rw [hj] at h
          dsimp only at h ⊢
          by_cases hterm : isTerminalEvent j = true
          · simp only [if_pos hterm]
            exact ⟨[.chunk j], rfl, rfl⟩
          · simp only [if_neg hterm] at h ⊢
            obtain ⟨pre, hpre, hcount⟩ := ih h
            refine ⟨.chunk j :: pre, ?_, ?_⟩
            · simp [hpre]
            · simpa [countComplete] using hcount
    · simp only [if_neg hs] at h ⊢; exact ih h

lemma streamLoop_ends_complete (fs : List String) :
    ∃ pre, streamLoop fs = pre ++ [.complete] ∧ countComplete pre = 0 := by
  induction fs with
  | nil => exact ⟨[], rfl, rfl⟩
  | cons f rest ih =>
    rw [streamLoop]
    by_cases hterm : (processLines (jsSplitNl f)).2 = true
    · simp only [hterm, if_true]
      exact processLines_term_shape _ hterm
    · simp only [hterm, if_false]
      obtain ⟨pre, hpre, hcount⟩ := ih
      refine ⟨(processLines (jsSplitNl f)).1 ++ pre, ?_, ?_⟩
      · simp [hpre]
      · have h0 := countComplete_processLines (jsSplitNl f)
        rw [if_neg hterm] at h0
        rw [countComplete_append, h0, hcount]

lemma streamLoop_cons_of_term (f : String) (more : List String)
    (h : (processLines (jsSplitNl f)).2 = true) :
    streamLoop (f :: more) = (processLines (jsSplitNl f)).1 := by
  rw [streamLoop]
  simp only [h, if_true]


/-! ### Claims C5 and C6 -/

/-- **C5.** For every prior store state and every argument (a `Case` or
null), `setCurrentCase` leaves the store with `chatMessages = []`,
`selectedCitation = null`, `currentThread = null`, and
`streamingContent = ""`, while setting `currentCase` to the argument. -/
theorem setCurrentCase_resets_chat_state (st : AppState) (c : Option Case) :
    (setCurrentCase st c).chatMessages = [] ∧
    (setCurrentCase st c).selectedCitation = none ∧
    (setCurrentCase st c).currentThread = none ∧
    (setCurrentCase st c).streamingContent = "" ∧
    (setCurrentCase st c).currentCase = c := by
  refine ⟨rfl, rfl, rfl, rfl, rfl⟩

/-- **C6.** `removeCase caseId` filters the case with that id out of
`cases`; when `caseId` is the current case's id it clears `currentCase`,
`currentThread` and `chatMessages`, and otherwise it leaves all three
unchanged. -/
theorem removeCase_spec (st : AppState) (caseId : String) :
    (removeCase st caseId).cases = st.cases.filter (fun c => !(c.id = caseId)) ∧
    (currentCaseIs st caseId = true →
      (removeCase st caseId).currentCase = none ∧
      (removeCase st caseId).currentThread = none ∧
      (removeCase st caseId).chatMessages = []) ∧
    (currentCaseIs st caseId = false →
      (removeCase st caseId).currentCase = st.currentCase ∧
      (removeCase st caseId).currentThread = st.currentThread ∧
      (removeCase st caseId).chatMessages = st.chatMessages) := by
  refine ⟨rfl, fun h => ?_, fun h => ?_⟩ <;>
    simp [removeCase, h]

/-- **C4.** A 401 from any url that is neither a login nor a logout
endpoint triggers the logout (token purge, navigation to `/login`) and is
replaced by a synthetic 401 with body `{"error":"Session expired"}`;
for urls containing `/login` or `/logout` the original response is passed
through and the state is untouched. -/
theorem apiRequest_401_spec (st : AuthState) (url : String) (resp : HttpResponse) :
    (resp.status = 401 → jsIncludes url "/login" = false → jsIncludes url "/logout" = false →
      apiRequest st url resp =
        (logout st, { status := 401, body := "\x7b\"error\":\"Session expired\"\x7d" }) ∧
      (apiRequest st url resp).1.accessToken = none ∧
      (apiRequest st url resp).1.sessionToken = none ∧
      (apiRequest st url resp).1.isAuthenticated = false ∧
      (apiRequest st url resp).1.route = some "/login") ∧
    ((jsIncludes url "/login" = true ∨ jsIncludes url "/logout" = true) →
      apiRequest st url resp = (st, resp)) := by
  constructor
  · intro h401 hlogin hlogout
    simp [apiRequest, h401, hlogin, hlogout, logout, removeToken]
  · rintro (h | h) <;> simp [apiRequest, h]

/-- Witness for C4: a 401 on `/api/cases` logs the user out and yields the
synthetic body, while a 401 on `/api/auth/login` is returned unchanged. -/
theorem apiRequest_401_spec_witness :
    (apiRequest sampleAuth "/api/cases" sample401).1.route = some "/login" ∧
    (apiRequest sampleAuth "/api/cases" sample401).2.body
      = "\x7b\"error\":\"Session expired\"\x7d" ∧
    apiRequest sampleAuth "/api/auth/login" sample401 = (sampleAuth, sample401) := by
  have h1 := (apiRequest_401_spec sampleAuth "/api/cases" sample401).1 rfl
    (by decide) (by decide)
  have h2 := (apiRequest_401_spec sampleAuth "/api/auth/login" sample401).2
    (Or.inl (by decide))
  exact ⟨h1.2.2.2.2, by rw [h1.1], h2⟩

/-- **C8.** On a successful response carrying a (truthy, hence non-empty)
access token, `login` authenticates and stores the token in memory and in
the per-tab slot; on a network error or any failed response it returns
`{success:false, error}` and leaves the prior token, user and
`isAuthenticated` unchanged. -/
theorem login_spec (st : AuthState) (out : LoginOutcome) :
    (∀ t usr err, out = .response true (some t) usr err → t ≠ "" →
      (login st out).2 = { success := true, user := usr } ∧
      (login st out).1.isAuthenticated = true ∧
      (login st out).1.accessToken = some t ∧
      (login st out).1.sessionToken = some t) ∧
    ((login st out).2.success = false →
      (∃ e, (login st out).2.error = some e) ∧
      (login st out).1.accessToken = st.accessToken ∧
      (login st out).1.sessionToken = st.sessionToken ∧
      (login st out).1.user = st.user ∧
      (login st out).1.isAuthenticated = st.isAuthenticated) ∧
    (out = .netError → (login st out).2.success = false) ∧
    (∀ ok tok usr err, out = .response ok tok usr err →
      (ok = false ∨ jsOrStr tok "" = "") → (login st out).2.success = false) := by
  refine ⟨?_, ?_, ?_, ?_⟩
  · rintro t usr err rfl ht
    simp [login, jsOrStr, ht, storeToken]
  · intro hfail
    cases out with
    | netError => simp [login]
    | response ok tok usr err =>
      by_cases hc : (ok && !(jsOrStr tok "" = "")) = true
      · simp [login, hc] at hfail
      · simp [login, hc]
  · rintro rfl; simp [login]
  · rintro ok tok usr err rfl h
    rcases h with h | h <;> simp [login, h]

/-- Witness for C8: a successful login with token `"tok"` authenticates
and stores it; a failed response leaves the blank prior state unchanged
and carries an error. -/
theorem login_spec_witness :
    (login {} (.response true (some "tok") none none)).1.isAuthenticated = true ∧
    (login {} (.response true (some "tok") none none)).1.accessToken = some "tok" ∧
    (login {} (.response false none none (some "bad credentials"))).1.accessToken = none ∧
    (login {} (.response false none none (some "bad credentials"))).2.success = false := by
  have h1 := (login_spec {} (.response true (some "tok") none none)).1 "tok" none none rfl
    (by decide)
  have h3 := (login_spec {} (.response false none none (some "bad credentials"))).2.2.2
    false none none (some "bad credentials") rfl (Or.inl rfl)
  have h2 := (login_spec {} (.response false none none (some "bad credentials"))).2.1 h3
  exact ⟨h1.2.1, h1.2.2.1, h2.2.1, h3⟩

/-- Witness for C6: removing the current case `"c1"` clears the current
selection, and removing the non-current case `"c2"` leaves
`currentCase`, `currentThread` and `chatMessages` untouched. -/
theorem removeCase_spec_witness :
    (removeCase sampleStateCurrent "c1").currentCase = none ∧
    (removeCase sampleStateCurrent "c1").currentThread = none ∧
    (removeCase sampleStateCurrent "c1").chatMessages = [] ∧
    (removeCase sampleStateOther "c2").currentCase = sampleStateOther.currentCase ∧
    (removeCase sampleStateOther "c2").currentThread = sampleStateOther.currentThread ∧
    (removeCase sampleStateOther "c2").chatMessages = sampleStateOther.chatMessages := by
  have h1 := (removeCase_spec sampleStateCurrent "c1").2.1 (by decide)
  have h2 := (removeCase_spec sampleStateOther "c2").2.2 (by decide)
  exact ⟨h1.1, h1.2.1, h1.2.2, h2.1, h2.2.1, h2.2.2⟩

/-! ### Substring lemmas for the validation messages -/

/-- `String.toList` distributes over append. -/
lemma toList_append (a b : String) : (a ++ b).toList = a.toList ++ b.toList := rfl

/-- A list starts with itself, whatever follows. -/
lemma listStartsWith_refl_append (p rest : List Char) :
    listStartsWith (p ++ rest) p = true := by
  induction p with
  | nil => cases rest <;> rfl
  | cons c cs ih => simp [listStartsWith, ih]

/-- A leading occurrence is an occurrence. -/
lemma listContainsSub_of_startsWith (s sub : List Char)
    (h : listStartsWith s sub = true) : listContainsSub s sub = true := by
  cases s with
  | nil =>
    cases sub with
    | nil => rfl
    | cons d ds => simp [listStartsWith] at h
  | cons c cs => simp [listContainsSub, h]

/-- Occurrences survive prepending. -/
lemma listContainsSub_append_left (pre s sub : List Char)
    (h : listContainsSub s sub = true) : listContainsSub (pre ++ s) sub = true := by
  induction pre with
  | nil => simpa using h
  | cons c cs ih => simp [listContainsSub, ih]

/-- The middle part of a concatenation occurs in it. -/
lemma listContainsSub_middle (a b c : List Char) :
    listContainsSub (a ++ (b ++ c)) b = true :=
  listContainsSub_append_left a _ _
    (listContainsSub_of_startsWith _ _ (listStartsWith_refl_append b c))

/-- Matching heads reduce a starts-with test. -/
lemma listStartsWith_append_both (p x q : List Char) :
    listStartsWith (p ++ x) (p ++ q) = listStartsWith x q := by
  induction p with
  | nil => rfl
  | cons c cs ih => simp [listStartsWith, ih]

/-- The oversize message contains the file name. -/
lemma jsIncludes_sizeErrorMsg_name (maxMB : Nat) (name : String) :
    jsIncludes (sizeErrorMsg maxMB name) name = true := by
  unfold jsIncludes sizeErrorMsg
  simp only [toList_append, List.append_assoc]
  exact listContainsSub_middle _ _ _

/-- The oversize message contains the configured limit, as `"{n}MB"`. -/
lemma jsIncludes_sizeErrorMsg_limit (maxMB : Nat) (name : String) :
    jsIncludes (sizeErrorMsg maxMB name) (toString maxMB ++ "MB") = true := by
  unfold jsIncludes sizeErrorMsg
  simp only [toList_append, List.append_assoc]
  apply listContainsSub_append_left
  apply listContainsSub_append_left
  apply listContainsSub_append_left
  apply listContainsSub_of_startsWith
  rw [listStartsWith_append_both]
  rfl


/-! ### Claims C1, C2, C3 and C7 — the streaming consumer -/

/-- **C1, counterexample.** On the two-fragment stream
`"data: {\"type\":\"content\",\"content\":\"hi\"}\n"`,
`"data: {\"type\":\"done\"}\n"`, the consumer invokes `onChunk` twice,
not once: `onChunk(parsedData)` runs before the terminal-type check, so
the `done` event is also delivered to `onChunk`.  This refutes the claim
that `onChunk` fires exactly once and never for the `done` event. -/
theorem streamTwoFragments_onChunk_twice :
    countChunks (streamChatWithDocuments (respOf [sseContentFrag, sseDoneFrag])) = 2 ∧
    StreamEvent.chunk doneEvent
      ∈ streamChatWithDocuments (respOf [sseContentFrag, sseDoneFrag]) := by
  constructor
  · rfl
  · show StreamEvent.chunk doneEvent
      ∈ [.chunk contentEvent, .chunk doneEvent, .complete]
    exact List.mem_cons_of_mem _ (List.mem_cons_self _ _)

/-- **C1, amended.** On that stream the consumer invokes `onChunk`
exactly twice — first with the content event, then with the `done` event
— and then invokes `onComplete` exactly once, with no callback after
it. -/
theorem streamTwoFragments_trace :
    streamChatWithDocuments (respOf [sseContentFrag, sseDoneFrag])
      = [.chunk contentEvent, .chunk doneEvent, .complete] ∧
    jsonTypeField contentEvent = some (.str "content") ∧
    jsonTypeField doneEvent = some (.str "done") ∧
    countComplete (streamChatWithDocuments (respOf [sseContentFrag, sseDoneFrag])) = 1 := by
  exact ⟨rfl, rfl, rfl, rfl⟩

/-- **C2.** A well-formed `data: ` event line split across two byte
fragments produces no `onChunk` call: the two halves concatenate to the
content fragment, which delivered whole yields the content event, but
delivered split yields only the end-of-stream `onComplete` — each
fragment is split on newlines independently, with no carry-over
buffer. -/
theorem streamSplitLine_drops_event :
    sseSplitFragA ++ sseSplitFragB = sseContentFrag ∧
    streamChatWithDocuments (respOf [sseContentFrag])
      = [.chunk contentEvent, .complete] ∧
    streamChatWithDocuments (respOf [sseSplitFragA, sseSplitFragB]) = [.complete] ∧
    countChunks (streamChatWithDocuments (respOf [sseSplitFragA, sseSplitFragB])) = 0 := by
  exact ⟨rfl, rfl, rfl, rfl⟩

/-- **C3.** When the line loop parses a terminal (`done`/`error`) event —
`(processLines ls).2 = true` records exactly that — the consumer stops
at once: later lines of the fragment change nothing, the fragment trace
ends with `onComplete` and contains no earlier `onComplete`, the outer
loop requests no further fragment, and every run invokes `onComplete`
exactly once in total. -/
theorem streamChat_terminal_event_spec (ls extra : List String) (f : String)
    (more fs : List String) :
    ((processLines ls).2 = true →
      processLines (ls ++ extra) = processLines ls ∧
      ∃ pre, (processLines ls).1 = pre ++ [.complete] ∧ countComplete pre = 0) ∧
    ((processLines (jsSplitNl f)).2 = true →
      streamLoop (f :: more) = (processLines (jsSplitNl f)).1) ∧
    countComplete (streamLoop fs) = 1 := by
  refine ⟨fun h => ⟨processLines_append_of_term ls extra h, processLines_term_shape ls h⟩,
    streamLoop_cons_of_term f more, ?_⟩
  obtain ⟨pre, hpre, hc⟩ := streamLoop_ends_complete fs
  rw [hpre, countComplete_append, hc]
  rfl

/-- Witness for C3: a fragment carrying the done event terminates the
stream — the status line appended after the done line is never
processed, and the follow-up fragment is never read. -/
theorem streamChat_terminal_event_spec_witness :
    processLines ([doneLine] ++ [statusLine]) = processLines [doneLine] ∧
    streamLoop [sseDoneFrag, sseContentFrag] = (processLines (jsSplitNl sseDoneFrag)).1 := by
  have h := streamChat_terminal_event_spec [doneLine] [statusLine] sseDoneFrag
    [sseContentFrag] []
  exact ⟨(h.1 rfl).1, h.2.1 rfl⟩

/-- **C7.** On a stream whose first fragment carries the malformed
payload `{not json}` and whose second carries the done event, the
consumer throws nothing and reports no error: the malformed line is
skipped (its `JSON.parse` fails), the following line is still processed,
and `onComplete` is reached. -/
theorem streamMalformed_line_skipped :
    jsonParse "\x7bnot json\x7d" = none ∧
    streamChatWithDocuments (respOf [sseMalformedFrag, sseDoneFrag])
      = [.chunk doneEvent, .complete] ∧
    countErrors (streamChatWithDocuments (respOf [sseMalformedFrag, sseDoneFrag])) = 0 ∧
    countComplete (streamChatWithDocuments (respOf [sseMalformedFrag, sseDoneFrag])) = 1 := by
  exact ⟨rfl, rfl, rfl, rfl⟩

/-! ### Claims C9 and C10 -/

/-- **C9.** With an accepted extension, a file of exactly
`maxFileSizeMB * 1024 * 1024` bytes passes `validateFile` (`null`), while
one byte more is rejected — before any network call, `validateFile` being
a local pure check — with the oversize message, which contains the file
name and the configured limit. -/
theorem validateFile_size_boundary (maxMB : Nat) (accept : String) (f g : JsFile)
    (hf : f.size = maxMB * 1024 * 1024)
    (hext : (acceptedTypes accept).contains (fileExtension f.name) = true)
    (hg : g.size = maxMB * 1024 * 1024 + 1) :
    validateFile maxMB accept f = none ∧
    validateFile maxMB accept g = some (sizeErrorMsg maxMB g.name) ∧
    jsIncludes (sizeErrorMsg maxMB g.name) g.name = true ∧
    jsIncludes (sizeErrorMsg maxMB g.name) (toString maxMB ++ "MB") = true := by
  refine ⟨?_, ?_, jsIncludes_sizeErrorMsg_name maxMB g.name,
    jsIncludes_sizeErrorMsg_limit maxMB g.name⟩
  · have hmem : fileExtension f.name ∈ acceptedTypes accept := by simpa using hext
    simp [validateFile, hf, hmem]
  · simp [validateFile, hg]

/-- Witness for C9: with the default 32 MB limit, a 33554432-byte
`brief.pdf` is accepted and a 33554433-byte one is rejected with a
message naming it. -/
theorem validateFile_size_boundary_witness :
    validateFile config_maxFileSizeMB defaultAccept { name := "brief.pdf", size := 33554432 } = none ∧
    validateFile config_maxFileSizeMB defaultAccept { name := "brief.pdf", size := 33554433 }
      = some (sizeErrorMsg config_maxFileSizeMB "brief.pdf") ∧
    jsIncludes (sizeErrorMsg config_maxFileSizeMB "brief.pdf") "brief.pdf" = true := by
  have h := validateFile_size_boundary config_maxFileSizeMB defaultAccept
    { name := "brief.pdf", size := 33554432 } { name := "brief.pdf", size := 33554433 }
    rfl (by decide) rfl
  exact ⟨h.1, h.2.1, h.2.2.1⟩

/-- **C10.** In every citation `chatWithCase` returns, the two naming
conventions agree (`id = chunk_id`, `documentId = document_id`,
`documentTitle = document_name`, `page = page_number`,
`relevantSourceText = full_content = content`), and omitted backend
fields take their defaults: pages 1, chunk number 0, score 0, document
name falling back to the document id and then `"Unknown Document"`,
string fields to `""`. -/
theorem chatWithCase_citation_mapping (caseId : String) (c : BackendCitation) :
    ((mapCitation caseId c).id = (mapCitation caseId c).chunk_id ∧
      (mapCitation caseId c).documentId = (mapCitation caseId c).document_id ∧
      (mapCitation caseId c).documentTitle = (mapCitation caseId c).document_name ∧
      (mapCitation caseId c).page = (mapCitation caseId c).page_number ∧
      (mapCitation caseId c).relevantSourceText = (mapCitation caseId c).content ∧
      (mapCitation caseId c).full_content = (mapCitation caseId c).content ∧
      (mapCitation caseId c).case_id = caseId) ∧
    (c.page_number = none → (mapCitation caseId c).page_number = 1) ∧
    (c.chunk_number = none → (mapCitation caseId c).chunk_number = 0) ∧
    (c.score = none → (mapCitation caseId c).score = 0) ∧
    (c.document_name = none →
      (mapCitation caseId c).document_name = jsOrStr c.document_id "Unknown Document") ∧
    (c.content = none → (mapCitation caseId c).content = "") ∧
    (c.chunk_id = none → c.id = none → (mapCitation caseId c).chunk_id = "") ∧
    (c.document_id = none → (mapCitation caseId c).document_id = "") ∧
    (∀ (bcs : List BackendCitation) (m : Citation),
      m ∈ chatWithCaseCitations caseId (some bcs) →
      ∃ bc, bc ∈ bcs ∧ m = mapCitation caseId bc) := by
  refine ⟨⟨rfl, rfl, rfl, rfl, rfl, rfl, rfl⟩, ?_, ?_, ?_, ?_, ?_, ?_, ?_, ?_⟩
  · intro h; simp [mapCitation, h, jsOrNat]
  · intro h; simp [mapCitation, h, jsOrNat]
  · intro h; simp [mapCitation, h, jsOrRat]
  · intro h; simp [mapCitation, h, jsOrStr]
  · intro h; simp [mapCitation, h, jsOrStr]
  · intro h1 h2; simp [mapCitation, h1, h2, jsOrStr]
  · intro h; simp [mapCitation, h, jsOrStr]
  · intro bcs m hm
    simp only [chatWithCaseCitations, Option.getD_some, List.mem_map] at hm
    obtain ⟨bc, hbc, hmap⟩ := hm
    exact ⟨bc, hbc, hmap.symm⟩

/-- Witness for C10: mapping the all-absent backend citation applies
every default. -/
theorem chatWithCase_citation_mapping_witness :
    (mapCitation "case1" {}).page_number = 1 ∧
    (mapCitation "case1" {}).chunk_number = 0 ∧
    (mapCitation "case1" {}).score = 0 ∧
    (mapCitation "case1" {}).document_name = "Unknown Document" ∧
    (mapCitation "case1" {}).content = "" ∧
    (mapCitation "case1" {}).chunk_id = "" := by
  have h := chatWithCase_citation_mapping "case1" {}
  refine ⟨h.2.1 rfl, h.2.2.1 rfl, h.2.2.2.1 rfl, ?_, h.2.2.2.2.2.1 rfl,
    h.2.2.2.2.2.2.1 rfl rfl⟩
  have hd := h.2.2.2.2.1 rfl
  simpa [jsOrStr] using hd

end Lexis
